import Mathlib

/-!
Verification of the QRQUIZ server (latest tenant-scoped variant).
The per-tenant data store holds five collections: teams, tasks, records,
events and logs.  The HTTP handlers are embedded as pure functions from a
store (plus the request parameters, cookies, freshly generated uuids and
the current time) to a result together with the updated store.
-/

namespace QZ

/-- One answer option of a task: `{label, points}`. -/
structure TaskOption where
  label : String
  points : Int
deriving Repr, DecidableEq

/-- A team: `{id, name, score}`. -/
structure Team where
  id : String
  name : String
  score : Int
deriving Repr, DecidableEq

/-- A task: `{id, title, options}`. -/
structure Task where
  id : String
  title : String
  options : List TaskOption
deriving Repr, DecidableEq

/-- An event: `{id, name, teamIds, taskIds, created}`. -/
structure Event where
  id : String
  name : String
  teamIds : List String
  taskIds : List String
  created : Nat
deriving Repr, DecidableEq

/-- An answer record: `{id, teamId, taskId, optionIndex, points, eventId, time}`. -/
structure Record where
  id : String
  teamId : String
  taskId : String
  optionIndex : Int
  points : Int
  eventId : Option String
  time : Nat
deriving Repr, DecidableEq

/-- A log entry: `{id, type, teamId, taskId?, optionIndex?, points?, eventId?, by?, time}`.
The JS field `by` is named `byUser` here (`by` is a Lean keyword). -/
structure LogEntry where
  id : String
  type : String
  teamId : Option String
  taskId : Option String
  optionIndex : Option Int
  points : Option Int
  eventId : Option String
  byUser : Option String
  time : Nat
deriving Repr, DecidableEq

/-- A tenant data store: the five lowdb collections of one tenant file. -/
structure Store where
  teams : List Team
  tasks : List Task
  records : List Record
  events : List Event
  logs : List LogEntry
deriving Repr, DecidableEq

/-- Fold a run of decimal digits into a number, as parseInt does. -/
def digitsVal (cs : List Char) : Nat :=
  cs.foldl (fun n c => n * 10 + (c.toNat - ('0').toNat)) 0

/-- JS whitespace skipped by parseInt. -/
def isJsSpace (c : Char) : Bool :=
  c = ' ' || c = '\t' || c = '\n' || c = '\r'

/-- Unsigned part of parseInt(s, 10): the value of the leading digit run,
`none` (NaN) when there is no leading digit. -/
def parseDigits (cs : List Char) : Option Nat :=
  let ds := cs.takeWhile Char.isDigit
  if ds.isEmpty then none else some (digitsVal ds)

/-- Model of parseInt(s, 10) on an optional query parameter: `none` models NaN
(missing parameter, or no leading digits after optional sign). -/
def parseIntJS : Option String → Option Int
  | none => none
  | some s =>
    match s.data.dropWhile isJsSpace with
    | '-' :: rest => (parseDigits rest).map (fun n => -(n : Int))
    | '+' :: rest => (parseDigits rest).map (fun n => (n : Int))
    | cs => (parseDigits cs).map (fun n => (n : Int))

/-- Model of the lowdb chain find by team id, then update the score field
by adding p: lowdb updates the first matching team only, and is a no-op
when no team matches. -/
def updateTeamScore : List Team → String → Int → List Team
  | [], _, _ => []
  | t :: ts, teamId, p =>
    if t.id == teamId then { t with score := t.score + p } :: ts
    else t :: updateTeamScore ts teamId p

/-- Outcome of the GET /scan handler (redirects and error statuses). -/
inductive ScanResult
  | redirectJoin
  | invalidTask
  | invalidEvent
  | notInEvent
  | forbidden
  | alreadyAnswered
  | invalidAnswer
  | points (p : Int)
deriving Repr, DecidableEq

/-- Event-scope checks of the scan handler (lines 161-166): `some r`
means the handler terminates with outcome `r`, `none` means the checks
pass (or no event is in session scope). -/
def eventCheck (db : Store) (taskId teamId : String) : Option String → Option ScanResult
  | none => none
  | some eventId =>
    match db.events.find? (fun e => e.id == eventId) with
    | none => some ScanResult.invalidEvent
    | some ev =>
      if ¬ ev.taskIds.contains taskId then some ScanResult.notInEvent
      else if ¬ ev.teamIds.contains teamId then some ScanResult.forbidden
      else none

/-- Lookup of an existing record for the exact (teamId, taskId) pair, the
lowdb find over the records collection matching both fields. -/
def recordFor (db : Store) (teamId taskId : String) : Option Record :=
  db.records.find? (fun r => r.teamId == teamId && r.taskId == taskId)

/-- Handler GET /scan (lines 147-181 of the tenant variant).  The values
`taskId` and `optionIndex?` come from the query, `teamId?` and `eventId?`
from cookies (`none` models a falsy cookie, matching the coercion
of a missing eventId cookie to null); `recId` and `logId` are the fresh
uuids and `now` is the current time. -/
def scan (db : Store) (taskId : String) (optionIndex? : Option String)
    (teamId? eventId? : Option String) (recId logId : String) (now : Nat) :
    ScanResult × Store :=
  match teamId? with
  | none => (ScanResult.redirectJoin, db)
  | some teamId =>
    match db.tasks.find? (fun t => t.id == taskId) with
    | none => (ScanResult.invalidTask, db)
    | some task =>
      match eventCheck db taskId teamId eventId? with
      | some r => (r, db)
      | none =>
        match recordFor db teamId taskId with
        | some _ => (ScanResult.alreadyAnswered, db)
        | none =>
          match parseIntJS optionIndex? with
          | none => (ScanResult.invalidAnswer, db)
          | some i =>
            match (if i < 0 then none else task.options[i.toNat]?) with
            | none => (ScanResult.invalidAnswer, db)
            | some opt =>
              (ScanResult.points opt.points,
                { db with
                  records := db.records ++
                    [⟨recId, teamId, taskId, i, opt.points, eventId?, now⟩],
                  teams := updateTeamScore db.teams teamId opt.points,
                  logs := db.logs ++
                    [⟨logId, "answer", some teamId, some taskId, some i,
                      some opt.points, eventId?, none, now⟩] })

/-- The empty tenant store: the lowdb defaults of a fresh tenant file. -/
def emptyStore : Store := ⟨[], [], [], [], []⟩

/-- Outcome of the GET /join.html handler. -/
inductive JoinResult
  | invalidTeam
  | invalidEvent
  | forbidden
  | joined
deriving Repr, DecidableEq

/-- Handler GET /join.html (lines 122-145): validates the team (and event
membership when an eventId is given), sets cookies (out of scope here)
and appends a join-type log entry. -/
def joinReq (db : Store) (teamId : String) (eventId? : Option String)
    (logId : String) (now : Nat) : JoinResult × Store :=
  match db.teams.find? (fun t => t.id == teamId) with
  | none => (JoinResult.invalidTeam, db)
  | some _ =>
    let pushLog : Store :=
      { db with logs := db.logs ++
          [⟨logId, "join", some teamId, none, none, none, eventId?, none, now⟩] }
    match eventId? with
    | none => (JoinResult.joined, pushLog)
    | some eventId =>
      match db.events.find? (fun e => e.id == eventId) with
      | none => (JoinResult.invalidEvent, db)
      | some ev =>
        if ¬ ev.teamIds.contains teamId then (JoinResult.forbidden, db)
        else (JoinResult.joined, pushLog)

/-- Handler POST /api/admin/tasks (lines 259-264): push a new task. -/
def createTask (db : Store) (id title : String) (options : List TaskOption) : Store :=
  { db with tasks := db.tasks ++ [⟨id, title, options⟩] }

/-- Handler DELETE /api/admin/tasks/:id (lines 265-270): remove the
task(s) with this id and every record whose taskId references it. -/
def deleteTask (db : Store) (taskId : String) : Store :=
  { db with
    tasks := db.tasks.filter (fun t => !(t.id == taskId)),
    records := db.records.filter (fun r => !(r.taskId == taskId)) }

/-- Shape of the id and name pairs echoed by the team-creation endpoint. -/
structure TeamBrief where
  id : String
  name : String
deriving Repr, DecidableEq

/-- Handler POST /api/admin/teams/create (lines 273-283): one iteration
per fresh uuid in `ids`; each iteration names the team from the team count
at that moment plus one and pushes it with score 0. -/
def createTeams (db : Store) : List String → List TeamBrief × Store
  | [] => ([], db)
  | id :: rest =>
    let name := "Hold " ++ toString (db.teams.length + 1)
    let db1 : Store := { db with teams := db.teams ++ [⟨id, name, 0⟩] }
    let step := createTeams db1 rest
    (⟨id, name⟩ :: step.1, step.2)

/-- Handler POST /api/admin/teams/reset (lines 284-288): wipe teams and records. -/
def resetTeams (db : Store) : Store :=
  { db with teams := [], records := [] }

/-- Handler POST /api/admin/events (lines 291-297): reject an empty name,
else push the new event. -/
def createEvent (db : Store) (id name : String) (teamIds taskIds : List String)
    (now : Nat) : Option String × Store :=
  if name == "" then (none, db)
  else (some id, { db with events := db.events ++ [⟨id, name, teamIds, taskIds, now⟩] })

/-- Keep-first deduplication with a seen-accumulator (insertion order). -/
def dedupAux (seen : List String) : List String → List String
  | [] => []
  | x :: xs => if x ∈ seen then dedupAux seen xs else x :: dedupAux (x :: seen) xs

/-- Model of Array.from applied to a Set built from xs: JS sets keep
insertion order and drop later duplicates. -/
def dedupJS (xs : List String) : List String := dedupAux [] xs

/-- Model of the lowdb chain find event by id then assign: replace the
first event carrying this id. -/
def replaceFirstEvent : List Event → String → Event → List Event
  | [], _, _ => []
  | e :: es, eid, next =>
    if e.id == eid then next :: es else e :: replaceFirstEvent es eid next

/-- The object `next` built by the append handler: the event with the
provided ids spread into its two id arrays through a JS Set. -/
def nextEvent (ev : Event) (addTeams addTasks : List String) : Event :=
  { ev with
    teamIds := dedupJS (ev.teamIds ++ addTeams),
    taskIds := dedupJS (ev.taskIds ++ addTasks) }

/-- Handler POST /api/admin/events/:id/append (lines 306-318): 404
(`none`) when the event is absent; otherwise union the provided ids into
the two id arrays of the event by spreading old and added ids through a JS
Set, assign the result back, and return the updated event. -/
def appendToEvent (db : Store) (eventId : String)
    (addTeams addTasks : List String) : Option Event × Store :=
  match db.events.find? (fun e => e.id == eventId) with
  | none => (none, db)
  | some ev =>
    (some (nextEvent ev addTeams addTasks),
      { db with events :=
          replaceFirstEvent db.events ev.id (nextEvent ev addTeams addTasks) })

/-- Handler POST /api/admin/logs/clear (lines 353-356). -/
def clearLogs (db : Store) : Store := { db with logs := [] }

/-- Model of the lowdb chain find team by id then assign score 0: zero
the score of the first matching team. -/
def assignScoreZeroFirst : List Team → String → List Team
  | [], _ => []
  | t :: ts, teamId =>
    if t.id == teamId then { t with score := 0 } :: ts
    else t :: assignScoreZeroFirst ts teamId

/-- Handler POST /api/admin/reset (lines 366-370): clear the records,
then for each team in the collection zero the score of the first team
carrying its id (a forEach over the live array; ids are untouched, so
folding over the initial id list is faithful). -/
def resetScores (db : Store) : Store :=
  { db with
    records := [],
    teams := (db.teams.map (fun t => t.id)).foldl assignScoreZeroFirst db.teams }

/-- Handler POST /api/admin/bonus (lines 378-385): the numeric coercion
of the extra field is taken as an integer input `add`; bump the score of
the first matching team and append a bonus-type log entry. -/
def bonus (db : Store) (teamId : String) (add : Int) (byUser : String)
    (logId : String) (now : Nat) : Store :=
  { db with
    teams := updateTeamScore db.teams teamId add,
    logs := db.logs ++
      [⟨logId, "bonus", some teamId, none, none, some add, none, some byUser, now⟩] }

/-- Responses of GET /api/event: the handler only ever produces `found`
or `nullEvent`; `httpError` exists so that never returning an error status
is a statement, not a typing accident of the handler alone. -/
inductive EventResp
  | found (id name : String)
  | nullEvent
  | httpError (code : Nat)
deriving Repr, DecidableEq

/-- Handler GET /api/event (lines 207-223): `db?` is `none` when the
tenant does not resolve, `eventId?` is the cookie.  Every miss degrades to
the null event response. -/
def apiEvent (db? : Option Store) (eventId? : Option String) : EventResp :=
  match db? with
  | none => EventResp.nullEvent
  | some db =>
    match eventId? with
    | none => EventResp.nullEvent
    | some eventId =>
      match db.events.find? (fun e => e.id == eventId) with
      | none => EventResp.nullEvent
      | some ev => EventResp.found ev.id ev.name

/-- One tenant-store-mutating operation of the server, with the request
data, fresh uuids and timestamps it consumes. -/
inductive Op
  | scanOp (taskId : String) (optionIndex? teamId? eventId? : Option String)
      (recId logId : String) (now : Nat)
  | joinOp (teamId : String) (eventId? : Option String) (logId : String) (now : Nat)
  | createTaskOp (id title : String) (options : List TaskOption)
  | deleteTaskOp (taskId : String)
  | createTeamsOp (ids : List String)
  | resetTeamsOp
  | createEventOp (id name : String) (teamIds taskIds : List String) (now : Nat)
  | appendEventOp (eventId : String) (addTeams addTasks : List String)
  | clearLogsOp
  | resetScoresOp
  | bonusOp (teamId : String) (add : Int) (byUser logId : String) (now : Nat)

/-- The store produced by one operation. -/
def applyOp (op : Op) (db : Store) : Store :=
  match op with
  | Op.scanOp taskId oi ti ei recId logId now => (scan db taskId oi ti ei recId logId now).2
  | Op.joinOp teamId ei logId now => (joinReq db teamId ei logId now).2
  | Op.createTaskOp id title options => createTask db id title options
  | Op.deleteTaskOp taskId => deleteTask db taskId
  | Op.createTeamsOp ids => (createTeams db ids).2
  | Op.resetTeamsOp => resetTeams db
  | Op.createEventOp id name teamIds taskIds now =>
      (createEvent db id name teamIds taskIds now).2
  | Op.appendEventOp eventId addTeams addTasks =>
      (appendToEvent db eventId addTeams addTasks).2
  | Op.clearLogsOp => clearLogs db
  | Op.resetScoresOp => resetScores db
  | Op.bonusOp teamId add byUser logId now => bonus db teamId add byUser logId now

/-- The scan handler is the only operation that creates records. -/
def isScanOp : Op → Bool
  | Op.scanOp _ _ _ _ _ _ _ => true
  | _ => false

/-- Two records do not collide on the (teamId, taskId) key. -/
def RecordKeyDistinct (a b : Record) : Prop :=
  ¬ (a.teamId = b.teamId ∧ a.taskId = b.taskId)

/-- The core invariant: at most one record per (teamId, taskId) pair. -/
def recordsUnique (db : Store) : Prop :=
  db.records.Pairwise RecordKeyDistinct

instance (db : Store) : Decidable (recordsUnique db) := by
  unfold recordsUnique RecordKeyDistinct
  infer_instance

/-- Score reported for a team id, as GET /api/score reads it: the score
field of the first team carrying the id, `none` when the team is absent. -/
def scoreOf (db : Store) (teamId : String) : Option Int :=
  (db.teams.find? (fun t => t.id == teamId)).map (fun t => t.score)

/-- Teams produced by the creation loop when the tenant already holds `k`
teams: the i-th fresh uuid becomes a team named from the count k + i + 1
with score 0.  This names the sequential-naming pattern of the spec; the
theorem for the creation endpoint relates the code to it. -/
def seqTeams (k : Nat) : List String → List Team
  | [] => []
  | id :: rest => ⟨id, "Hold " ++ toString (k + 1), 0⟩ :: seqTeams (k + 1) rest

/-- Per-request data of one scan (query values, event cookie, fresh uuids,
timestamp); the team cookie is shared by the whole sequence. -/
structure ScanReq where
  taskId : String
  optionIndex? : Option String
  eventId? : Option String
  recId : String
  logId : String
  now : Nat
deriving Repr, DecidableEq

/-- Run a sequence of scans under one team cookie, collecting the outcomes
and threading the store. -/
def runScans (db : Store) (teamId? : Option String) :
    List ScanReq → List ScanResult × Store
  | [] => ([], db)
  | r :: rs =>
    let step := scan db r.taskId r.optionIndex? teamId? r.eventId? r.recId r.logId r.now
    let rest := runScans step.2 teamId? rs
    (step.1 :: rest.1, rest.2)

/-- Zero the score of a team when its id matches `x` (the pointwise form
the reset fold reduces to once team ids are duplicate-free). -/
def zeroIf (x : String) (t : Team) : Team :=
  if t.id == x then { t with score := 0 } else t

/-- Sample task used to instantiate theorems on concrete stores. -/
def sTask : Task := ⟨"task1", "Q1", [⟨"A", 10⟩, ⟨"B", 0⟩]⟩

/-- Sample store: one team, one task, no records. -/
def sStore : Store :=
  ⟨[⟨"teamA", "Hold 1", 0⟩], [sTask], [], [], []⟩

/-- Sample store with an existing record for (teamA, task1). -/
def sStoreAns : Store :=
  ⟨[⟨"teamA", "Hold 1", 10⟩], [sTask],
   [⟨"rec1", "teamA", "task1", 0, 10, none, 1⟩], [], []⟩

/-- Sample second task, not part of the sample event. -/
def sTask2 : Task := ⟨"task2", "Q2", [⟨"A", 5⟩]⟩

/-- Sample store with one event scoping the sample task but not teamB. -/
def sStoreEv : Store :=
  ⟨[⟨"teamA", "Hold 1", 0⟩, ⟨"teamB", "Hold 2", 0⟩], [sTask, sTask2], [],
   [⟨"ev1", "Finale", ["teamA"], ["task1"], 0⟩], []⟩

/-- Sample store with a task but no team at all. -/
def sStoreNoTeam : Store := ⟨[], [sTask], [], [], []⟩

theorem eventCheck_ne_points (db : Store) (taskId tid : String)
    (ei : Option String) (p : Int) :
    eventCheck db taskId tid ei ≠ some (ScanResult.points p) := by
  cases ei with
  | none => simp [eventCheck]
  | some eventId =>
    simp only [eventCheck]
    split
    · simp
    · split
      · simp
      · split <;> simp

theorem find?_updateTeamScore (ts : List Team) (tid : String) (p : Int) :
    (updateTeamScore ts tid p).find? (fun t => t.id == tid) =
      (ts.find? (fun t => t.id == tid)).map
        (fun t => { t with score := t.score + p }) := by
  induction ts with
  | nil => rfl
  | cons t ts ih =>
    cases h : (t.id == tid) with
    | true => simp [updateTeamScore, List.find?_cons, h]
    | false => simp [updateTeamScore, List.find?_cons, h, ih]

theorem updateTeamScore_nomatch (ts : List Team) (tid : String) (p : Int)
    (h : ts.find? (fun t => t.id == tid) = none) :
    updateTeamScore ts tid p = ts := by
  induction ts with
  | nil => rfl
  | cons t ts ih =>
    rw [List.find?_cons] at h
    cases hh : (t.id == tid) with
    | true => rw [hh] at h; simp at h
    | false =>
      rw [hh] at h
      simp [updateTeamScore, hh, ih h]

theorem scoreOf_update (db db2 : Store) (tid : String) (p : Int)
    (h : db2.teams = updateTeamScore db.teams tid p) :
    scoreOf db2 tid = (scoreOf db tid).map (fun s => s + p) := by
  unfold scoreOf
  rw [h, find?_updateTeamScore]
  cases db.teams.find? (fun t => t.id == tid) <;> rfl

theorem scan_success_eq (db : Store) (taskId : String) (oi ei : Option String)
    (tid recId logId : String) (now : Nat) (task : Task) (i : Int) (opt : TaskOption)
    (htask : db.tasks.find? (fun t => t.id == taskId) = some task)
    (hev : eventCheck db taskId tid ei = none)
    (hrec : recordFor db tid taskId = none)
    (hip : parseIntJS oi = some i)
    (hi : ¬ i < 0)
    (hopt : task.options[i.toNat]? = some opt) :
    scan db taskId oi (some tid) ei recId logId now =
      (ScanResult.points opt.points,
        { db with
          records := db.records ++ [⟨recId, tid, taskId, i, opt.points, ei, now⟩],
          teams := updateTeamScore db.teams tid opt.points,
          logs := db.logs ++
            [⟨logId, "answer", some tid, some taskId, some i,
              some opt.points, ei, none, now⟩] }) := by
  simp only [scan, htask, hev, hrec, hip, if_neg hi, hopt]

theorem scan_store_cases (db : Store) (taskId : String) (oi ti ei : Option String)
    (recId logId : String) (now : Nat) :
    (scan db taskId oi ti ei recId logId now).2 = db ∨
    ∃ p db2, scan db taskId oi ti ei recId logId now = (ScanResult.points p, db2) := by
  unfold scan
  split
  · left; rfl
  · split
    · left; rfl
    · split
      · left; rfl
      · split
        · left; rfl
        · split
          · left; rfl
          · split
            · left; rfl
            · right; exact ⟨_, _, rfl⟩

theorem joinReq_records (db : Store) (teamId : String) (ei : Option String)
    (logId : String) (now : Nat) :
    ((joinReq db teamId ei logId now).2).records = db.records := by
  unfold joinReq
  split
  · rfl
  · split
    · rfl
    · split
      · rfl
      · split <;> rfl

theorem createEvent_records (db : Store) (id name : String)
    (teamIds taskIds : List String) (now : Nat) :
    ((createEvent db id name teamIds taskIds now).2).records = db.records := by
  unfold createEvent
  split <;> rfl

theorem appendToEvent_frame (db : Store) (eventId : String)
    (addTeams addTasks : List String) :
    ((appendToEvent db eventId addTeams addTasks).2).records = db.records ∧
    ((appendToEvent db eventId addTeams addTasks).2).teams = db.teams ∧
    ((appendToEvent db eventId addTeams addTasks).2).tasks = db.tasks ∧
    ((appendToEvent db eventId addTeams addTasks).2).logs = db.logs := by
  unfold appendToEvent
  split <;> exact ⟨rfl, rfl, rfl, rfl⟩

theorem createTeams_spec (ids : List String) (db : Store) :
    (createTeams db ids).2 =
      { db with teams := db.teams ++ seqTeams db.teams.length ids } ∧
    (createTeams db ids).1 =
      (seqTeams db.teams.length ids).map (fun t => TeamBrief.mk t.id t.name) := by
  induction ids generalizing db with
  | nil =>
    refine ⟨?_, rfl⟩
    show db = _
    simp [seqTeams]
  | cons id rest ih =>
    have h := ih { db with teams :=
      db.teams ++ [⟨id, "Hold " ++ toString (db.teams.length + 1), 0⟩] }
    have hlen : (db.teams ++
        [(⟨id, "Hold " ++ toString (db.teams.length + 1), 0⟩ : Team)]).length =
        db.teams.length + 1 := by simp
    constructor
    · show (createTeams _ rest).2 = _
      rw [h.1]
      simp only [hlen, seqTeams]
      simp [List.append_assoc]
    · show TeamBrief.mk id ("Hold " ++ toString (db.teams.length + 1)) ::
        (createTeams _ rest).1 = _
      rw [h.2]
      simp only [hlen, seqTeams, List.map_cons]

theorem seqTeams_getElem? (ids : List String) (k i : Nat) (id : String)
    (h : ids[i]? = some id) :
    (seqTeams k ids)[i]? =
      some ⟨id, "Hold " ++ toString (k + i + 1), 0⟩ := by
  induction ids generalizing k i with
  | nil => simp at h
  | cons x rest ih =>
    cases i with
    | zero =>
      simp at h
      subst h
      simp [seqTeams]
    | succ n =>
      simp only [List.getElem?_cons_succ] at h
      have h2 := ih (k + 1) n h
      have harith : k + 1 + n + 1 = k + (n + 1) + 1 := by omega
      rw [harith] at h2
      simpa [seqTeams] using h2

theorem scan_points_inv (db : Store) (taskId : String) (oi ti ei : Option String)
    (recId logId : String) (now : Nat) (p : Int) (db2 : Store)
    (h : scan db taskId oi ti ei recId logId now = (ScanResult.points p, db2)) :
    ∃ tid task i opt,
      ti = some tid ∧
      db.tasks.find? (fun t => t.id == taskId) = some task ∧
      eventCheck db taskId tid ei = none ∧
      recordFor db tid taskId = none ∧
      parseIntJS oi = some i ∧ ¬ i < 0 ∧
      task.options[i.toNat]? = some opt ∧
      p = opt.points ∧
      db2 = { db with
        records := db.records ++ [⟨recId, tid, taskId, i, opt.points, ei, now⟩],
        teams := updateTeamScore db.teams tid opt.points,
        logs := db.logs ++
          [⟨logId, "answer", some tid, some taskId, some i,
            some opt.points, ei, none, now⟩] } := by
  cases ti with
  | none => simp [scan] at h
  | some tid =>
    cases htask : db.tasks.find? (fun t => t.id == taskId) with
    | none => simp [scan, htask] at h
    | some task =>
      cases hev : eventCheck db taskId tid ei with
      | some r =>
        simp only [scan, htask, hev, Prod.mk.injEq] at h
        exact absurd (h.1 ▸ hev) (eventCheck_ne_points db taskId tid ei p)
      | none =>
        cases hrec : recordFor db tid taskId with
        | some r => simp [scan, htask, hev, hrec] at h
        | none =>
          cases hip : parseIntJS oi with
          | none => simp [scan, htask, hev, hrec, hip] at h
          | some i =>
            by_cases hi : i < 0
            · simp [scan, htask, hev, hrec, hip, hi] at h
            · cases hopt : task.options[i.toNat]? with
              | none => simp [scan, htask, hev, hrec, hip, hi, hopt] at h
              | some opt =>
                simp only [scan, htask, hev, hrec, hip, if_neg hi, hopt,
                  Prod.mk.injEq, ScanResult.points.injEq] at h
                exact ⟨tid, task, i, opt, rfl, rfl, hev, hrec, rfl, hi, hopt,
                  h.1.symm, h.2.symm⟩

theorem recordsUnique_scan (db : Store) (taskId : String) (oi ti ei : Option String)
    (recId logId : String) (now : Nat) (h : recordsUnique db) :
    recordsUnique (scan db taskId oi ti ei recId logId now).2 := by
  rcases scan_store_cases db taskId oi ti ei recId logId now with h2 | ⟨p, db2, hsc⟩
  · rw [h2]; exact h
  · obtain ⟨tid, task, i, opt, -, -, -, hrec, -, -, -, -, hdb2⟩ :=
      scan_points_inv db taskId oi ti ei recId logId now p db2 hsc
    rw [hsc]
    show recordsUnique db2
    subst hdb2
    unfold recordsUnique at h ⊢
    dsimp only
    rw [List.pairwise_append]
    refine ⟨h, List.pairwise_singleton _ _, ?_⟩
    intro a ha b hb
    rw [List.mem_singleton] at hb
    subst hb
    unfold recordFor at hrec
    have hall := List.find?_eq_none.mp hrec a ha
    simp only [Bool.and_eq_true, beq_iff_eq] at hall
    intro hcontra
    exact hall ⟨hcontra.1, hcontra.2⟩


theorem mem_dedupAux (l : List String) :
    ∀ (seen : List String) (x : String),
      x ∈ dedupAux seen l ↔ (x ∈ l ∧ x ∉ seen) := by
  induction l with
  | nil => intro seen x; simp [dedupAux]
  | cons y l ih =>
    intro seen x
    by_cases hy : y ∈ seen
    · simp only [dedupAux, if_pos hy, ih, List.mem_cons]
      constructor
      · rintro ⟨h1, h2⟩; exact ⟨Or.inr h1, h2⟩
      · rintro ⟨h1 | h1, h2⟩
        · exact absurd (h1 ▸ hy) h2
        · exact ⟨h1, h2⟩
    · simp only [dedupAux, if_neg hy, List.mem_cons, ih]
      by_cases hxy : x = y
      · subst hxy; simp [hy]
      · simp [hxy]
  
theorem nodup_dedupAux (l : List String) :
    ∀ seen : List String, (dedupAux seen l).Nodup := by
  induction l with
  | nil => intro seen; simp [dedupAux]
  | cons y l ih =>
    intro seen
    by_cases hy : y ∈ seen
    · simpa [dedupAux, if_pos hy] using ih seen
    · simp only [dedupAux, if_neg hy]
      refine List.nodup_cons.mpr ⟨?_, ih (y :: seen)⟩
      intro hmem
      exact ((mem_dedupAux l (y :: seen) y).mp hmem).2 (List.mem_cons_self y seen)

theorem mem_dedupJS (l : List String) (x : String) :
    x ∈ dedupJS l ↔ x ∈ l := by
  unfold dedupJS
  rw [mem_dedupAux]
  simp

theorem nodup_dedupJS (l : List String) : (dedupJS l).Nodup :=
  nodup_dedupAux l []

theorem replaceFirstEvent_mem (es : List Event) (eid : String) (next : Event) :
    ∀ e ∈ replaceFirstEvent es eid next, e = next ∨ e ∈ es := by
  induction es with
  | nil => intro e he; simp [replaceFirstEvent] at he
  | cons a es ih =>
    intro e he
    unfold replaceFirstEvent at he
    by_cases h : (a.id == eid) = true
    · rw [if_pos h] at he
      rcases List.mem_cons.mp he with h1 | h1
      · exact Or.inl h1
      · exact Or.inr (List.mem_cons_of_mem a h1)
    · rw [if_neg h] at he
      rcases List.mem_cons.mp he with h1 | h1
      · exact Or.inr (h1 ▸ List.mem_cons_self a es)
      · rcases ih e h1 with h2 | h2
        · exact Or.inl h2
        · exact Or.inr (List.mem_cons_of_mem a h2)

theorem zeroIf_id (x : String) (t : Team) : (zeroIf x t).id = t.id := by
  unfold zeroIf; split <;> rfl

theorem assign_eq_map_zeroIf (ts : List Team) (x : String)
    (h : (ts.map (fun t => t.id)).Nodup) :
    assignScoreZeroFirst ts x = ts.map (zeroIf x) := by
  induction ts with
  | nil => rfl
  | cons t ts ih =>
    rw [List.map_cons, List.nodup_cons] at h
    obtain ⟨h1, h2⟩ := h
    cases ht : (t.id == x) with
    | true =>
      have htx : t.id = x := by simpa using ht
      have hts : ts.map (zeroIf x) = ts := by
        have hall : ∀ s ∈ ts, zeroIf x s = s := by
          intro s hs
          have hne : s.id ≠ x := by
            intro hc
            apply h1
            rw [htx, ← hc]
            exact List.mem_map_of_mem _ hs
          simp [zeroIf, hne]
        calc ts.map (zeroIf x) = ts.map id := List.map_congr_left hall
        _ = ts := List.map_id ts
      simp [assignScoreZeroFirst, ht, List.map_cons, zeroIf, htx, hts]
    | false =>
      simp [assignScoreZeroFirst, ht, List.map_cons, zeroIf, ih h2]

theorem map_zeroIf_ids (ts : List Team) (x : String) :
    ((ts.map (zeroIf x)).map (fun t => t.id)) = ts.map (fun t => t.id) := by
  rw [List.map_map]
  apply List.map_congr_left
  intro t ht
  exact zeroIf_id x t

theorem foldl_assign_eq (L : List String) :
    ∀ ts : List Team, (ts.map (fun t => t.id)).Nodup →
      L.foldl assignScoreZeroFirst ts =
        ts.map (fun t => if t.id ∈ L then { t with score := 0 } else t) := by
  induction L with
  | nil =>
    intro ts _
    simp
  | cons x L ih =>
    intro ts h
    rw [List.foldl_cons]
    show L.foldl assignScoreZeroFirst (assignScoreZeroFirst ts x) = _
    rw [assign_eq_map_zeroIf ts x h]
    rw [ih (ts.map (zeroIf x)) (by rw [map_zeroIf_ids]; exact h)]
    rw [List.map_map]
    apply List.map_congr_left
    intro t ht
    by_cases htx : t.id = x
    · by_cases htL : t.id ∈ L
      · simp [zeroIf, Function.comp, htx, htL]
      · simp [zeroIf, Function.comp, htx, htL]
    · by_cases htL : t.id ∈ L
      · simp [zeroIf, Function.comp, htx, htL, zeroIf_id]
      · simp [zeroIf, Function.comp, htx, htL, zeroIf_id]

theorem seqTeams_length (ids : List String) :
    ∀ k, (seqTeams k ids).length = ids.length := by
  induction ids with
  | nil => intro k; rfl
  | cons id rest ih => intro k; simp [seqTeams, ih]

theorem runScans_score (tid : String) (reqs : List ScanReq) :
    ∀ (db : Store) (s : Int) (ps : List Int),
      scoreOf db tid = some s →
      (runScans db (some tid) reqs).1 = ps.map ScanResult.points →
      scoreOf (runScans db (some tid) reqs).2 tid = some (s + ps.sum) := by
  induction reqs with
  | nil =>
    intro db s ps h hres
    cases ps with
    | nil => simpa [runScans] using h
    | cons p ps2 => simp [runScans] at hres
  | cons r rs ih =>
    intro db s ps h hres
    cases ps with
    | nil => simp [runScans] at hres
    | cons p ps2 =>
      simp only [runScans, List.map_cons, List.cons.injEq] at hres
      obtain ⟨h1, h2⟩ := hres
      have hpair :
          scan db r.taskId r.optionIndex? (some tid) r.eventId? r.recId r.logId r.now =
            (ScanResult.points p,
              (scan db r.taskId r.optionIndex? (some tid) r.eventId? r.recId r.logId r.now).2) := by
        rw [← h1]
      obtain ⟨tid2, task, i, opt, htid, -, -, -, -, -, -, hp, hdb2⟩ :=
        scan_points_inv db r.taskId r.optionIndex? (some tid) r.eventId?
          r.recId r.logId r.now p _ hpair
      have htid2 : tid2 = tid := by injection htid with hh; exact hh.symm
      rw [htid2] at hdb2
      have hteams :
          ((scan db r.taskId r.optionIndex? (some tid) r.eventId? r.recId r.logId r.now).2).teams =
            updateTeamScore db.teams tid p := by
        rw [hp, hdb2]
      have hs2 :
          scoreOf (scan db r.taskId r.optionIndex? (some tid) r.eventId? r.recId r.logId r.now).2 tid =
            some (s + p) := by
        rw [scoreOf_update db _ tid p hteams, h]
        rfl
      have := ih _ (s + p) ps2 hs2 h2
      show scoreOf (runScans _ (some tid) rs).2 tid = _
      rw [this, List.sum_cons]
      congr 1
      rw [add_assoc]

/-- C1: for every tenant store satisfying the at-most-one-record-per
(teamId, taskId) invariant, every store-mutating operation of the server
preserves it; operations other than the scan handler never create records,
and any record present after an operation either already existed or was
created by a scan that found no record for its (teamId, taskId) pair. -/
theorem claim1_record_uniqueness_invariant (op : Op) (db : Store)
    (h : recordsUnique db) :
    recordsUnique (applyOp op db) ∧
    (isScanOp op = false → ∀ r ∈ (applyOp op db).records, r ∈ db.records) ∧
    (∀ r ∈ (applyOp op db).records,
      r ∈ db.records ∨ recordFor db r.teamId r.taskId = none) := by
  cases op with
  | scanOp taskId oi ti ei recId logId now =>
    dsimp only [applyOp, isScanOp]
    refine ⟨recordsUnique_scan db taskId oi ti ei recId logId now h, ?_, ?_⟩
    · intro hfalse; cases hfalse
    · intro r hr
      rcases scan_store_cases db taskId oi ti ei recId logId now with h2 | ⟨p, db2, hsc⟩
      · rw [h2] at hr; exact Or.inl hr
      · obtain ⟨tid, task, i, opt, -, -, -, hrecnone, -, -, -, -, hdb2⟩ :=
          scan_points_inv db taskId oi ti ei recId logId now p db2 hsc
        rw [hsc] at hr
        subst hdb2
        simp only [List.mem_append, List.mem_singleton] at hr
        rcases hr with hr | hr
        · exact Or.inl hr
        · subst hr
          exact Or.inr hrecnone
  | joinOp teamId ei logId now =>
    dsimp only [applyOp, isScanOp]
    have he := joinReq_records db teamId ei logId now
    refine ⟨?_, fun _ r hr => ?_, fun r hr => Or.inl ?_⟩
    · unfold recordsUnique at h ⊢; rw [he]; exact h
    · rwa [he] at hr
    · rwa [he] at hr
  | createTaskOp id title options =>
    exact ⟨h, fun _ r hr => hr, fun r hr => Or.inl hr⟩
  | deleteTaskOp taskId =>
    dsimp only [applyOp, isScanOp]
    refine ⟨?_, fun _ r hr => ?_, fun r hr => Or.inl ?_⟩
    · exact h.sublist (List.filter_sublist _)
    · exact List.mem_of_mem_filter hr
    · exact List.mem_of_mem_filter hr
  | createTeamsOp ids =>
    dsimp only [applyOp, isScanOp]
    have he : (createTeams db ids).2.records = db.records := by
      rw [(createTeams_spec ids db).1]
    refine ⟨?_, fun _ r hr => ?_, fun r hr => Or.inl ?_⟩
    · unfold recordsUnique at h ⊢; rw [he]; exact h
    · rwa [he] at hr
    · rwa [he] at hr
  | resetTeamsOp =>
    dsimp only [applyOp, isScanOp]
    refine ⟨List.Pairwise.nil, fun _ r hr => ?_, fun r hr => ?_⟩
    · simp [resetTeams] at hr
    · simp [resetTeams] at hr
  | createEventOp id name teamIds taskIds now =>
    dsimp only [applyOp, isScanOp]
    have he := createEvent_records db id name teamIds taskIds now
    refine ⟨?_, fun _ r hr => ?_, fun r hr => Or.inl ?_⟩
    · unfold recordsUnique at h ⊢; rw [he]; exact h
    · rwa [he] at hr
    · rwa [he] at hr
  | appendEventOp eventId addTeams addTasks =>
    dsimp only [applyOp, isScanOp]
    have he := (appendToEvent_frame db eventId addTeams addTasks).1
    refine ⟨?_, fun _ r hr => ?_, fun r hr => Or.inl ?_⟩
    · unfold recordsUnique at h ⊢; rw [he]; exact h
    · rwa [he] at hr
    · rwa [he] at hr
  | clearLogsOp =>
    exact ⟨h, fun _ r hr => hr, fun r hr => Or.inl hr⟩
  | resetScoresOp =>
    dsimp only [applyOp, isScanOp]
    refine ⟨List.Pairwise.nil, fun _ r hr => ?_, fun r hr => ?_⟩
    · simp [resetScores] at hr
    · simp [resetScores] at hr
  | bonusOp teamId add byUser logId now =>
    exact ⟨h, fun _ r hr => hr, fun r hr => Or.inl hr⟩

/-- Witness for C1 at a concrete scan operation on the sample store. -/
theorem claim1_witness :
    recordsUnique sStore ∧
      (recordsUnique
          (applyOp (Op.scanOp "task1" (some "0") (some "teamA") none "r1" "l1" 3) sStore) ∧
        (isScanOp (Op.scanOp "task1" (some "0") (some "teamA") none "r1" "l1" 3) = false →
          ∀ r ∈ (applyOp (Op.scanOp "task1" (some "0") (some "teamA") none "r1" "l1" 3)
              sStore).records, r ∈ sStore.records) ∧
        (∀ r ∈ (applyOp (Op.scanOp "task1" (some "0") (some "teamA") none "r1" "l1" 3)
            sStore).records,
          r ∈ sStore.records ∨ recordFor sStore r.teamId r.taskId = none)) :=
  ⟨by decide,
   claim1_record_uniqueness_invariant
     (Op.scanOp "task1" (some "0") (some "teamA") none "r1" "l1" 3) sStore (by decide)⟩

/-- C2: when a record for (teamId, taskId) already exists and the earlier
checks of the handler pass, a scan for the same pair returns the
already-answered soft reject for every optionIndex, valid or not, and
returns the store unchanged (records, teams with their scores, and logs
included). -/
theorem claim2_scan_idempotent_soft_reject (db : Store) (taskId tid : String)
    (oi ei : Option String) (recId logId : String) (now : Nat)
    (task : Task) (r : Record)
    (htask : db.tasks.find? (fun t => t.id == taskId) = some task)
    (hev : eventCheck db taskId tid ei = none)
    (hrec : recordFor db tid taskId = some r) :
    scan db taskId oi (some tid) ei recId logId now =
      (ScanResult.alreadyAnswered, db) := by
  simp only [scan, htask, hev, hrec]

/-- Witness for C2: a replayed scan with an out-of-range optionIndex on the
answered sample store. -/
theorem claim2_witness :
    scan sStoreAns "task1" (some "7") (some "teamA") none "r2" "l2" 9 =
      (ScanResult.alreadyAnswered, sStoreAns) :=
  claim2_scan_idempotent_soft_reject sStoreAns "task1" "teamA" (some "7") none
    "r2" "l2" 9 sTask ⟨"rec1", "teamA", "task1", 0, 10, none, 1⟩
    (by decide) (by decide) (by decide)

/-- C4: with an event id in session scope (and the team cookie and task
checks already passed), an unresolvable event id fails as invalid event; a
task outside the taskIds of the event yields the not-in-event soft-reject
redirect without any team-membership hypothesis and without mutating the
store; a team outside the teamIds of the event fails as forbidden. -/
theorem claim4_event_scope_checks (db : Store) (taskId tid eid : String)
    (oi : Option String) (recId logId : String) (now : Nat) (task : Task)
    (htask : db.tasks.find? (fun t => t.id == taskId) = some task) :
    (db.events.find? (fun e => e.id == eid) = none →
      scan db taskId oi (some tid) (some eid) recId logId now =
        (ScanResult.invalidEvent, db)) ∧
    (∀ ev, db.events.find? (fun e => e.id == eid) = some ev →
      taskId ∉ ev.taskIds →
      scan db taskId oi (some tid) (some eid) recId logId now =
        (ScanResult.notInEvent, db)) ∧
    (∀ ev, db.events.find? (fun e => e.id == eid) = some ev →
      taskId ∈ ev.taskIds → tid ∉ ev.teamIds →
      scan db taskId oi (some tid) (some eid) recId logId now =
        (ScanResult.forbidden, db)) := by
  refine ⟨fun hev => ?_, fun ev hev hnt => ?_, fun ev hev ht hnm => ?_⟩
  · have hc : eventCheck db taskId tid (some eid) = some ScanResult.invalidEvent := by
      simp [eventCheck, hev]
    simp only [scan, htask, hc]
  · have hc : eventCheck db taskId tid (some eid) = some ScanResult.notInEvent := by
      simp [eventCheck, hev, hnt]
    simp only [scan, htask, hc]
  · have hc : eventCheck db taskId tid (some eid) = some ScanResult.forbidden := by
      simp [eventCheck, hev, ht, hnm]
    simp only [scan, htask, hc]

/-- Witness for C4: the three event-scope outcomes on the sample store with
an event. -/
theorem claim4_witness :
    scan sStoreEv "task1" (some "0") (some "teamA") (some "nope") "r" "l" 0 =
      (ScanResult.invalidEvent, sStoreEv) ∧
    scan sStoreEv "task2" (some "0") (some "teamA") (some "ev1") "r" "l" 0 =
      (ScanResult.notInEvent, sStoreEv) ∧
    scan sStoreEv "task1" (some "0") (some "teamB") (some "ev1") "r" "l" 0 =
      (ScanResult.forbidden, sStoreEv) :=
  ⟨(claim4_event_scope_checks sStoreEv "task1" "teamA" "nope" (some "0") "r" "l" 0
      sTask (by decide)).1 (by decide),
   (claim4_event_scope_checks sStoreEv "task2" "teamA" "ev1" (some "0") "r" "l" 0
      sTask2 (by decide)).2.1 ⟨"ev1", "Finale", ["teamA"], ["task1"], 0⟩
      (by decide) (by decide),
   (claim4_event_scope_checks sStoreEv "task1" "teamB" "ev1" (some "0") "r" "l" 0
      sTask (by decide)).2.2 ⟨"ev1", "Finale", ["teamA"], ["task1"], 0⟩
      (by decide) (by decide) (by decide)⟩

/-- C7: deleting a task removes that task and exactly the records whose
taskId references it, and leaves teams (scores included), events and logs
untouched. -/
theorem claim7_delete_task_cascade (db : Store) (taskId : String) :
    (∀ r : Record, r ∈ (deleteTask db taskId).records ↔
      (r ∈ db.records ∧ r.taskId ≠ taskId)) ∧
    (∀ t : Task, t ∈ (deleteTask db taskId).tasks ↔
      (t ∈ db.tasks ∧ t.id ≠ taskId)) ∧
    (deleteTask db taskId).teams = db.teams ∧
    (deleteTask db taskId).events = db.events ∧
    (deleteTask db taskId).logs = db.logs := by
  refine ⟨fun r => ?_, fun t => ?_, rfl, rfl, rfl⟩
  · simp [deleteTask, List.mem_filter]
  · simp [deleteTask, List.mem_filter]

/-- Witness for C7: deleting the answered sample task keeps the team (and
its stale score) and drops the record referencing the task. -/
theorem claim7_witness :
    (deleteTask sStoreAns "task1").teams = sStoreAns.teams ∧
    (⟨"rec1", "teamA", "task1", 0, 10, none, 1⟩ : Record) ∉
      (deleteTask sStoreAns "task1").records :=
  ⟨(claim7_delete_task_cascade sStoreAns "task1").2.2.1,
   fun hmem =>
     (((claim7_delete_task_cascade sStoreAns "task1").1 _).mp hmem).2 rfl⟩

/-- C9: the event-info endpoint always reports success with either a found
event (id and name) or a null event: unresolved tenant, missing eventId
cookie and unknown event id all degrade to the null event, and no input
produces an error status. -/
theorem claim9_api_event_never_errors :
    (∀ ei, apiEvent none ei = EventResp.nullEvent) ∧
    (∀ db, apiEvent (some db) none = EventResp.nullEvent) ∧
    (∀ db eid, db.events.find? (fun e => e.id == eid) = none →
      apiEvent (some db) (some eid) = EventResp.nullEvent) ∧
    (∀ db eid ev, db.events.find? (fun e => e.id == eid) = some ev →
      apiEvent (some db) (some eid) = EventResp.found ev.id ev.name) ∧
    (∀ db? ei c, apiEvent db? ei ≠ EventResp.httpError c) := by
  refine ⟨fun ei => rfl, fun db => rfl, fun db eid h => by simp [apiEvent, h],
    fun db eid ev h => by simp [apiEvent, h], ?_⟩
  intro db? ei c
  cases db? with
  | none => simp [apiEvent]
  | some db =>
    cases ei with
    | none => simp [apiEvent]
    | some eid =>
      cases h : db.events.find? (fun e => e.id == eid) with
      | none => simp [apiEvent, h]
      | some ev => simp [apiEvent, h]

/-- Witness for C9: a found event and an unknown event id on the sample
store. -/
theorem claim9_witness :
    apiEvent (some sStoreEv) (some "ev1") = EventResp.found "ev1" "Finale" ∧
    apiEvent (some sStoreEv) (some "nope") = EventResp.nullEvent :=
  ⟨claim9_api_event_never_errors.2.2.2.1 sStoreEv "ev1"
      ⟨"ev1", "Finale", ["teamA"], ["task1"], 0⟩ (by decide),
   claim9_api_event_never_errors.2.2.1 sStoreEv "nope" (by decide)⟩

/-- C3: a scan that passes every check appends exactly one record carrying
the points of the chosen option, adds exactly those points (possibly zero
or negative) to the score of the first team carrying the team id, appends
exactly one answer-type log entry, and reports the points; consequently a
team starting at score 0 ends, after a sequence of scans that all succeed,
at the sum of the awarded points. -/
theorem claim3_successful_scan_scoring :
    (∀ (db : Store) (taskId : String) (oi ei : Option String)
        (tid recId logId : String) (now : Nat) (task : Task) (i : Int)
        (opt : TaskOption),
      db.tasks.find? (fun t => t.id == taskId) = some task →
      eventCheck db taskId tid ei = none →
      recordFor db tid taskId = none →
      parseIntJS oi = some i → ¬ i < 0 →
      task.options[i.toNat]? = some opt →
      scan db taskId oi (some tid) ei recId logId now =
        (ScanResult.points opt.points,
          { db with
            records := db.records ++ [⟨recId, tid, taskId, i, opt.points, ei, now⟩],
            teams := updateTeamScore db.teams tid opt.points,
            logs := db.logs ++
              [⟨logId, "answer", some tid, some taskId, some i,
                some opt.points, ei, none, now⟩] }) ∧
      scoreOf (scan db taskId oi (some tid) ei recId logId now).2 tid =
        (scoreOf db tid).map (fun s => s + opt.points)) ∧
    (∀ (db : Store) (tid : String) (reqs : List ScanReq) (ps : List Int),
      scoreOf db tid = some 0 →
      (runScans db (some tid) reqs).1 = ps.map ScanResult.points →
      scoreOf (runScans db (some tid) reqs).2 tid = some ps.sum) := by
  constructor
  · intro db taskId oi ei tid recId logId now task i opt htask hev hrec hip hi hopt
    have hs := scan_success_eq db taskId oi ei tid recId logId now task i opt
      htask hev hrec hip hi hopt
    refine ⟨hs, ?_⟩
    apply scoreOf_update db _ tid opt.points
    rw [hs]
  · intro db tid reqs ps h hres
    have hsum := runScans_score tid reqs db 0 ps h hres
    simpa using hsum

/-- Witness for C3: two successful scans by one team on the two sample
tasks accumulate 10 + 5 points from score 0. -/
theorem claim3_witness :
    scoreOf sStoreEv "teamA" = some 0 ∧
    (runScans sStoreEv (some "teamA")
        [⟨"task1", some "0", none, "r1", "l1", 1⟩,
         ⟨"task2", some "0", none, "r2", "l2", 2⟩]).1 =
      ([10, 5] : List Int).map ScanResult.points ∧
    scoreOf (runScans sStoreEv (some "teamA")
        [⟨"task1", some "0", none, "r1", "l1", 1⟩,
         ⟨"task2", some "0", none, "r2", "l2", 2⟩]).2 "teamA" =
      some ([10, 5] : List Int).sum :=
  ⟨by decide, by decide,
   claim3_successful_scan_scoring.2 sStoreEv "teamA"
     [⟨"task1", some "0", none, "r1", "l1", 1⟩,
      ⟨"task2", some "0", none, "r2", "l2", 2⟩]
     [10, 5] (by decide) (by decide)⟩

/-- C5: appending to an absent event fails as not-found with the store
unchanged; appending to a present event returns the updated event, whose
two id arrays are duplicate-free and hold exactly the union of the old and
the provided ids, whose other fields are unchanged, and stores it in place
of the old event while leaving every other collection unchanged. -/
theorem claim5_append_event_union (db : Store) (eid : String)
    (addTeams addTasks : List String) :
    (db.events.find? (fun e => e.id == eid) = none →
      appendToEvent db eid addTeams addTasks = (none, db)) ∧
    (∀ ev, db.events.find? (fun e => e.id == eid) = some ev →
      appendToEvent db eid addTeams addTasks =
        (some (nextEvent ev addTeams addTasks),
          { db with events :=
              replaceFirstEvent db.events ev.id (nextEvent ev addTeams addTasks) }) ∧
      (nextEvent ev addTeams addTasks).id = ev.id ∧
      (nextEvent ev addTeams addTasks).name = ev.name ∧
      (nextEvent ev addTeams addTasks).created = ev.created ∧
      (nextEvent ev addTeams addTasks).teamIds.Nodup ∧
      (nextEvent ev addTeams addTasks).taskIds.Nodup ∧
      (∀ x, x ∈ (nextEvent ev addTeams addTasks).teamIds ↔
        (x ∈ ev.teamIds ∨ x ∈ addTeams)) ∧
      (∀ x, x ∈ (nextEvent ev addTeams addTasks).taskIds ↔
        (x ∈ ev.taskIds ∨ x ∈ addTasks)) ∧
      (∀ e ∈ (appendToEvent db eid addTeams addTasks).2.events,
        e = nextEvent ev addTeams addTasks ∨ e ∈ db.events) ∧
      (appendToEvent db eid addTeams addTasks).2.teams = db.teams ∧
      (appendToEvent db eid addTeams addTasks).2.tasks = db.tasks ∧
      (appendToEvent db eid addTeams addTasks).2.records = db.records ∧
      (appendToEvent db eid addTeams addTasks).2.logs = db.logs) := by
  constructor
  · intro hev
    simp only [appendToEvent, hev]
  · intro ev hev
    refine ⟨by simp only [appendToEvent, hev], rfl, rfl, rfl,
      nodup_dedupJS _, nodup_dedupJS _, ?_, ?_, ?_,
      by simp only [appendToEvent, hev],
      by simp only [appendToEvent, hev],
      by simp only [appendToEvent, hev],
      by simp only [appendToEvent, hev]⟩
    · intro x
      show x ∈ dedupJS (ev.teamIds ++ addTeams) ↔ _
      rw [mem_dedupJS, List.mem_append]
    · intro x
      show x ∈ dedupJS (ev.taskIds ++ addTasks) ↔ _
      rw [mem_dedupJS, List.mem_append]
    · intro e he
      simp only [appendToEvent, hev] at he
      exact replaceFirstEvent_mem db.events ev.id _ e he

/-- Witness for C5: appending teamB (and a duplicate teamA) plus task2 to
the sample event unions without duplicates. -/
theorem claim5_witness :
    (appendToEvent sStoreEv "ev1" ["teamB", "teamA"] ["task2"]).1 =
      some ⟨"ev1", "Finale", ["teamA", "teamB"], ["task1", "task2"], 0⟩ ∧
    ("teamB" ∈ (nextEvent ⟨"ev1", "Finale", ["teamA"], ["task1"], 0⟩
        ["teamB", "teamA"] ["task2"]).teamIds ↔
      ("teamB" ∈ (["teamA"] : List String) ∨
        "teamB" ∈ (["teamB", "teamA"] : List String))) := by
  have h := (claim5_append_event_union sStoreEv "ev1" ["teamB", "teamA"]
    ["task2"]).2 ⟨"ev1", "Finale", ["teamA"], ["task1"], 0⟩ (by decide)
  refine ⟨?_, h.2.2.2.2.2.2.1 "teamB"⟩
  rw [h.1]
  decide

/-- C6: creating a batch of teams in a tenant holding k teams appends
exactly one team per requested slot, the i-th named from the team count at
its creation moment (k + i + 1) with score 0, echoes the same id and name
pairs, and touches no other collection. -/
theorem claim6_create_teams_sequential (db : Store) (ids : List String) :
    (createTeams db ids).2.teams = db.teams ++ seqTeams db.teams.length ids ∧
    (createTeams db ids).2.tasks = db.tasks ∧
    (createTeams db ids).2.records = db.records ∧
    (createTeams db ids).2.events = db.events ∧
    (createTeams db ids).2.logs = db.logs ∧
    (createTeams db ids).1 =
      (seqTeams db.teams.length ids).map (fun t => TeamBrief.mk t.id t.name) ∧
    (∀ k, (seqTeams k ids).length = ids.length) ∧
    (∀ k i id, ids[i]? = some id →
      (seqTeams k ids)[i]? =
        some (Team.mk id ("Hold " ++ toString (k + i + 1)) 0)) := by
  have hspec := createTeams_spec ids db
  exact ⟨by rw [hspec.1], by rw [hspec.1], by rw [hspec.1], by rw [hspec.1],
    by rw [hspec.1], hspec.2, seqTeams_length ids,
    fun k i id h => seqTeams_getElem? ids k i id h⟩

/-- Witness for C6: a batch of three on an empty tenant yields the teams
numbered 1, 2, 3 with score 0. -/
theorem claim6_witness :
    (createTeams emptyStore ["u1", "u2", "u3"]).2.teams =
      [⟨"u1", "Hold 1", 0⟩, ⟨"u2", "Hold 2", 0⟩, ⟨"u3", "Hold 3", 0⟩] ∧
    (seqTeams 0 ["u1", "u2", "u3"])[1]? = some ⟨"u2", "Hold 2", 0⟩ := by
  refine ⟨?_, (claim6_create_teams_sequential emptyStore
    ["u1", "u2", "u3"]).2.2.2.2.2.2.2 0 1 "u2" (by decide)⟩
  rw [(claim6_create_teams_sequential emptyStore ["u1", "u2", "u3"]).1]
  decide

/-- C8: on a store whose team ids are duplicate-free (as uuid-generated ids
are), the reset operation empties the records, zeroes every score while
keeping each team id and name, and leaves tasks, events and logs
unchanged. -/
theorem claim8_reset_scores (db : Store)
    (h : (db.teams.map (fun t => t.id)).Nodup) :
    (resetScores db).records = [] ∧
    (resetScores db).teams = db.teams.map (fun t => { t with score := 0 }) ∧
    (resetScores db).teams.map (fun t => (t.id, t.name)) =
      db.teams.map (fun t => (t.id, t.name)) ∧
    (∀ t ∈ (resetScores db).teams, t.score = 0) ∧
    (resetScores db).tasks = db.tasks ∧
    (resetScores db).events = db.events ∧
    (resetScores db).logs = db.logs := by
  have hteams : (resetScores db).teams =
      db.teams.map (fun t => { t with score := 0 }) := by
    show (db.teams.map (fun t => t.id)).foldl assignScoreZeroFirst db.teams = _
    rw [foldl_assign_eq (db.teams.map (fun t => t.id)) db.teams h]
    apply List.map_congr_left
    intro t ht
    rw [if_pos (List.mem_map_of_mem _ ht)]
  refine ⟨rfl, hteams, ?_, ?_, rfl, rfl, rfl⟩
  · rw [hteams, List.map_map]
    apply List.map_congr_left
    intro t ht
    rfl
  · intro t ht
    rw [hteams] at ht
    obtain ⟨s, hs, rfl⟩ := List.mem_map.mp ht
    rfl

/-- Witness for C8: resetting the two-team sample store zeroes both teams
and empties the records. -/
theorem claim8_witness :
    (sStoreEv.teams.map (fun t => t.id)).Nodup ∧
    (resetScores sStoreEv).records = [] ∧
    (resetScores sStoreEv).teams =
      sStoreEv.teams.map (fun t => { t with score := 0 }) := by
  have h : (sStoreEv.teams.map (fun t => t.id)).Nodup := by decide
  have hc := claim8_reset_scores sStoreEv h
  exact ⟨h, hc.1, hc.2.1⟩

/-- C10: the scan handler never checks that the team cookie references an
existing team; with no matching team and every other check passing, the
scan still succeeds, appends the record and the answer log entry for the
nonexistent team, reports the points, and leaves the teams collection (and
hence every score) unchanged. -/
theorem claim10_ghost_team_scan (db : Store) (taskId tid : String)
    (oi ei : Option String) (recId logId : String) (now : Nat)
    (task : Task) (i : Int) (opt : TaskOption)
    (hteam : db.teams.find? (fun t => t.id == tid) = none)
    (htask : db.tasks.find? (fun t => t.id == taskId) = some task)
    (hev : eventCheck db taskId tid ei = none)
    (hrec : recordFor db tid taskId = none)
    (hip : parseIntJS oi = some i) (hi : ¬ i < 0)
    (hopt : task.options[i.toNat]? = some opt) :
    scan db taskId oi (some tid) ei recId logId now =
      (ScanResult.points opt.points,
        { db with
          records := db.records ++ [⟨recId, tid, taskId, i, opt.points, ei, now⟩],
          logs := db.logs ++
            [⟨logId, "answer", some tid, some taskId, some i,
              some opt.points, ei, none, now⟩] }) ∧
    (scan db taskId oi (some tid) ei recId logId now).2.teams = db.teams := by
  have hs := scan_success_eq db taskId oi ei tid recId logId now task i opt
    htask hev hrec hip hi hopt
  have hno : updateTeamScore db.teams tid opt.points = db.teams :=
    updateTeamScore_nomatch db.teams tid opt.points hteam
  constructor
  · rw [hs, hno]
  · rw [hs, hno]

/-- Witness for C10: a scan with a team cookie naming no team still
succeeds on the sample one-task store. -/
theorem claim10_witness :
    scan sStoreNoTeam "task1" (some "0") (some "ghost") none "r1" "l1" 4 =
      (ScanResult.points 10,
        { sStoreNoTeam with
          records := sStoreNoTeam.records ++
            [⟨"r1", "ghost", "task1", 0, 10, none, 4⟩],
          logs := sStoreNoTeam.logs ++
            [⟨"l1", "answer", some "ghost", some "task1", some 0,
              some 10, none, none, 4⟩] }) ∧
    (scan sStoreNoTeam "task1" (some "0") (some "ghost") none "r1" "l1" 4).2.teams =
      sStoreNoTeam.teams := by
  have h := claim10_ghost_team_scan sStoreNoTeam "task1" "ghost" (some "0") none
    "r1" "l1" 4 sTask 0 ⟨"A", 10⟩ (by decide) (by decide) (by decide)
    (by decide) (by decide) (by decide) (by decide)
  exact ⟨h.1, h.2⟩

example : parseIntJS (some "2") = some 2 := by decide
example : parseIntJS (some " -13x") = some (-13) := by decide
example : parseIntJS (some "x3") = none := by decide
example : parseIntJS none = none := by decide
example :
    (scan emptyStore "t1" (some "0") (some "teamA") none "r" "l" 0).1 =
      ScanResult.invalidTask := by decide

end QZ
